import Mathlib

/-!
Verification of the SmallSampleLearning repository's NRRD analysis utilities.

Shallow embedding of `src/resnet3d/utils/bbox_analyze.py` and
`src/resnet3d/utils/hu_clip_normalize.py`.

Modelling conventions:
* A volume (the array returned by `nrrd.read`) is a 3-dimensional nested
  list of integer intensity values (`Mask`).
* `np.where(mask > 0)` is modelled by `voxelSet`, which enumerates the
  index triples of strictly positive entries in row-major order.
* Floating-point arithmetic on centroids, crop bounds and percentages is
  modelled with exact rational arithmetic (`ℚ`).
* `sys.exit(1)` with an error message is modelled with `Except.error`;
  per-file exceptions caught by the `try/except` in the batch loops are
  modelled by each file carrying a load result `Except String Mask`.
* The file list handed to a batch function stands for the glob result
  after the in-function lexicographic sort (`nrrd_files.sort()`); the
  claims under study do not depend on how the sort permutes the names.
-/

/-- A 3-dimensional volume of scalar intensities, as read by `nrrd.read`. -/
abbrev Mask := List (List (List Int))

/-- `np.where(mask > 0)`: the (x,y,z) index triples of strictly positive
voxels, enumerated in row-major order. -/
def voxelSet (m : Mask) : List (Nat × Nat × Nat) :=
  (m.enum.map (fun p =>
    ((p.2.enum.map (fun q =>
      (q.2.enum.filterMap (fun r =>
        if r.2 > 0 then some (p.1, q.1, r.1) else none)))).flatten))).flatten

/-- The x components of the voxel set (`x_idx` in the source). -/
def xIdx (m : Mask) : List Nat := (voxelSet m).map (fun v => v.1)

/-- The y components of the voxel set (`y_idx` in the source). -/
def yIdx (m : Mask) : List Nat := (voxelSet m).map (fun v => v.2.1)

/-- The z components of the voxel set (`z_idx` in the source). -/
def zIdx (m : Mask) : List Nat := (voxelSet m).map (fun v => v.2.2)

/-- `np.min` over a list of indices (0 on the empty list, which the
source never reaches because empty voxel sets are skipped). -/
def listMin : List Nat → Nat
  | [] => 0
  | [x] => x
  | x :: y :: xs => min x (listMin (y :: xs))

/-- `np.max` over a list of indices (0 on the empty list, never reached
on the paths under study). -/
def listMax : List Nat → Nat
  | [] => 0
  | [x] => x
  | x :: y :: xs => max x (listMax (y :: xs))

theorem listMin_le {l : List Nat} {y : Nat} (hy : y ∈ l) : listMin l ≤ y := by
  induction l with
  | nil => cases hy
  | cons a t ih =>
    cases t with
    | nil =>
      simp only [List.mem_singleton] at hy
      subst hy; exact Nat.le_refl y
    | cons b u =>
      rcases List.mem_cons.mp hy with h | h
      · subst h; exact min_le_left _ _
      · exact le_trans (min_le_right _ _) (ih h)

theorem le_listMax {l : List Nat} {y : Nat} (hy : y ∈ l) : y ≤ listMax l := by
  induction l with
  | nil => cases hy
  | cons a t ih =>
    cases t with
    | nil =>
      simp only [List.mem_singleton] at hy
      subst hy; exact Nat.le_refl y
    | cons b u =>
      rcases List.mem_cons.mp hy with h | h
      · subst h; exact le_max_left _ _
      · exact le_trans (ih h) (le_max_right _ _)

theorem listMax_mem {l : List Nat} (h : l ≠ []) : listMax l ∈ l := by
  induction l with
  | nil => exact absurd rfl h
  | cons a t ih =>
    cases t with
    | nil => simp [listMax]
    | cons b u =>
      rw [listMax]
      rcases max_choice a (listMax (b :: u)) with hc | hc
      · rw [hc]; exact List.mem_cons_self _ _
      · rw [hc]; exact List.mem_cons_of_mem _ (ih (by simp))

theorem listMin_le_listMax {l : List Nat} (h : l ≠ []) : listMin l ≤ listMax l :=
  listMin_le (listMax_mem h)

/-- One row of the bbox-extent output table (`records.append({...})` in
`analyze_bbox_from_nrrd`). -/
structure BBoxRecord where
  filename : String
  d_x : Int
  d_y : Int
  d_z : Int
deriving Repr, DecidableEq

/-- The per-file body of `analyze_bbox_from_nrrd`: compute the voxel set,
skip the file (`none`) when it is empty, otherwise record the per-axis
extents `max − min`. -/
def bboxRecordOf (filename : String) (m : Mask) : Option BBoxRecord :=
  let vs := voxelSet m
  if vs = [] then none
  else some
    { filename := filename
      d_x := (listMax (xIdx m) : Int) - (listMin (xIdx m) : Int)
      d_y := (listMax (yIdx m) : Int) - (listMin (yIdx m) : Int)
      d_z := (listMax (zIdx m) : Int) - (listMin (zIdx m) : Int) }

/-- A file handed to a batch loop: its basename and the outcome of
`nrrd.read` (an `error` is the exception caught by the per-file
`try/except`). -/
structure NrrdFile where
  filename : String
  load : Except String Mask

/-- One iteration of the loop in `analyze_bbox_from_nrrd`: a load failure
is caught and skipped, otherwise the file is processed by `bboxRecordOf`. -/
def processFile (f : NrrdFile) : Option BBoxRecord :=
  match f.load with
  | .error _ => none
  | .ok m => bboxRecordOf f.filename m

/-- `analyze_bbox_from_nrrd`: fatal exit when no files are found or when
no records were produced; otherwise the returned list is the CSV written
at the end, one row per record in processing order. -/
def analyze_bbox_from_nrrd (files : List NrrdFile) : Except String (List BBoxRecord) :=
  if files.isEmpty then .error "No NRRD files found"
  else
    let records := files.filterMap processFile
    if records.isEmpty then .error "No valid records generated"
    else .ok records

/-- The element-wise transform of `hu_clip_normalize`:
`np.clip(v, -1000, 400)` followed by `(clipped + 1000) / 1400`. -/
def hu_clip_normalize (v : ℚ) : ℚ :=
  (min 400 (max v (-1000)) + 1000) / 1400

/-- The whole-array action of `hu_clip_normalize` on a volume's values
(the array is flattened here; the transform is element-wise and
shape-independent). -/
def hu_clip_normalize_vol (data : List ℚ) : List ℚ :=
  data.map hu_clip_normalize

/-- `np.mean` over a list of integer indices, as an exact rational
(the arithmetic-mean centroid coordinate). -/
def centroid (idx : List Nat) : ℚ :=
  ((idx.map (fun n => (n : ℚ))).sum) / (idx.length : ℚ)

/-- The per-voxel outside test of `analyze_crop_outside_voxels`:
`(x < crop_x_min) | (x >= crop_x_max) | ...` with
`crop_a_min = center_a - bbox_a / 2` and `crop_a_max = center_a + bbox_a / 2`. -/
def voxelOutside (bbox : Int × Int × Int) (cx cy cz : ℚ) (v : Nat × Nat × Nat) : Bool :=
  decide ((v.1 : ℚ) < cx - (bbox.1 : ℚ) / 2) ||
  decide ((v.1 : ℚ) ≥ cx + (bbox.1 : ℚ) / 2) ||
  decide ((v.2.1 : ℚ) < cy - (bbox.2.1 : ℚ) / 2) ||
  decide ((v.2.1 : ℚ) ≥ cy + (bbox.2.1 : ℚ) / 2) ||
  decide ((v.2.2 : ℚ) < cz - (bbox.2.2 : ℚ) / 2) ||
  decide ((v.2.2 : ℚ) ≥ cz + (bbox.2.2 : ℚ) / 2)

/-- One row of the crop-statistics table
(`records.append({...})` in `analyze_crop_outside_voxels`). -/
structure CropStatRecord where
  filename : String
  total_voxels : Nat
  outside_voxels : Nat
  outside_percentage : ℚ
deriving Repr, DecidableEq

/-- The per-file body of `analyze_crop_outside_voxels`: skip files with
empty voxel set, otherwise count the voxels outside the crop window
centred at the voxel-set centroid. -/
def cropStatOf (filename : String) (m : Mask) (bbox : Int × Int × Int) :
    Option CropStatRecord :=
  let vs := voxelSet m
  if vs = [] then none
  else
    let cx := centroid (xIdx m)
    let cy := centroid (yIdx m)
    let cz := centroid (zIdx m)
    let total := vs.length
    let outside := vs.countP (voxelOutside bbox cx cy cz)
    some
      { filename := filename
        total_voxels := total
        outside_voxels := outside
        outside_percentage :=
          if total > 0 then (outside : ℚ) / (total : ℚ) * 100 else 0 }

/-- One iteration of the loop in `analyze_crop_outside_voxels`: a load
failure is caught and skipped. -/
def processCropFile (bbox : Int × Int × Int) (f : NrrdFile) : Option CropStatRecord :=
  match f.load with
  | .error _ => none
  | .ok m => cropStatOf f.filename m bbox

/-- `values.mean()` of a pandas column, `none` on an empty column
(pandas yields NaN there). -/
def listMeanQ (l : List ℚ) : Option ℚ :=
  if l = [] then none else some (l.sum / (l.length : ℚ))

/-- Ascending insertion of one element into a sorted list. -/
def insertAsc (x : ℚ) : List ℚ → List ℚ
  | [] => [x]
  | y :: ys => if x ≤ y then x :: y :: ys else y :: insertAsc x ys

/-- Ascending sort of a list of rationals. -/
def sortAsc : List ℚ → List ℚ
  | [] => []
  | x :: xs => insertAsc x (sortAsc xs)

/-- `values.median()` of a pandas column: the middle order statistic,
averaging the two middle elements for an even count; `none` (NaN) on an
empty column. -/
def listMedianQ (l : List ℚ) : Option ℚ :=
  let s := sortAsc l
  let n := s.length
  if n = 0 then none
  else if n % 2 = 1 then some (s.getD (n / 2) 0)
  else some ((s.getD (n / 2 - 1) 0 + s.getD (n / 2) 0) / 2)

/-- `values.max()` of a pandas column, `none` on an empty column. -/
def listMaxQ (l : List ℚ) : Option ℚ :=
  match l with
  | [] => none
  | x :: xs => some (xs.foldl max x)

/-- `values.min()` of a pandas column, `none` on an empty column. -/
def listMinQ (l : List ℚ) : Option ℚ :=
  match l with
  | [] => none
  | x :: xs => some (xs.foldl min x)

/-- The aggregate summary printed at the end of
`analyze_crop_outside_voxels` (`df['...'].mean()` and friends), on the
path where the record table is non-empty. -/
structure CropSummary where
  total_voxels_mean : Option ℚ
  outside_voxels_mean : Option ℚ
  outside_percentage_mean : Option ℚ
  outside_percentage_median : Option ℚ
  outside_percentage_max : Option ℚ
  outside_percentage_min : Option ℚ
deriving Repr, DecidableEq

/-- The summary step over `df = pd.DataFrame(records)`. There is no
explicit emptiness guard in the source; instead, when `records` is
empty, `pd.DataFrame([])` is a DataFrame with no columns at all, so the
very first column access `df['total_voxels']` raises an uncaught
`KeyError` and the process terminates abnormally — the `.error` case
here. On a non-empty record list every statistic is defined. -/
def cropSummaryOf (records : List CropStatRecord) : Except String CropSummary :=
  if records.isEmpty then .error "KeyError: total_voxels"
  else .ok
    { total_voxels_mean := listMeanQ (records.map (fun r => (r.total_voxels : ℚ)))
      outside_voxels_mean := listMeanQ (records.map (fun r => (r.outside_voxels : ℚ)))
      outside_percentage_mean := listMeanQ (records.map (fun r => r.outside_percentage))
      outside_percentage_median := listMedianQ (records.map (fun r => r.outside_percentage))
      outside_percentage_max := listMaxQ (records.map (fun r => r.outside_percentage))
      outside_percentage_min := listMinQ (records.map (fun r => r.outside_percentage)) }

/-- Helper of `splitOnComma`: accumulate the current component
(reversed) while scanning. -/
def splitOnCommaAux (acc : List Char) : List Char → List (List Char)
  | [] => [acc.reverse]
  | c :: cs =>
    if c = ',' then acc.reverse :: splitOnCommaAux [] cs
    else splitOnCommaAux (c :: acc) cs

/-- Python `bbox_size.split(',')` on the character list of the string:
cut at every comma, keeping empty components. -/
def splitOnComma (cs : List Char) : List (List Char) :=
  splitOnCommaAux [] cs

/-- Python surrounding-whitespace stripping, as `int()` applies before
parsing. -/
def pyStrip (cs : List Char) : List Char :=
  ((cs.dropWhile Char.isWhitespace).reverse.dropWhile Char.isWhitespace).reverse

/-- The digit-run part of Python `int(s)`: value of a string of ASCII
decimal digits, `none` if any character is not a digit. -/
def digitsAcc : List Char → Nat → Option Nat
  | [], acc => some acc
  | c :: cs, acc =>
    if c.isDigit then digitsAcc cs (acc * 10 + (c.toNat - 48)) else none

/-- Python `int(s)` on one component, modelled as: surrounding
whitespace stripped, an optional sign, then one or more decimal digits;
`none` models the `ValueError` raised otherwise. -/
def pyParseInt (s : List Char) : Option Int :=
  match pyStrip s with
  | '-' :: rest =>
    if rest.isEmpty then none else (digitsAcc rest 0).map (fun n => -(n : Int))
  | '+' :: rest =>
    if rest.isEmpty then none else (digitsAcc rest 0).map (fun n => (n : Int))
  | rest =>
    if rest.isEmpty then none else (digitsAcc rest 0).map (fun n => (n : Int))

/-- `map(int, parts)`: parse every component, `none` as soon as one
raises `ValueError`. -/
def mapIntList : List (List Char) → Option (List Int)
  | [] => some []
  | p :: ps =>
    match pyParseInt p, mapIntList ps with
    | some i, some is => some (i :: is)
    | _, _ => none

/-- The `bbox_size` string parsing of `analyze_crop_outside_voxels`:
`bbox_x, bbox_y, bbox_z = map(int, bbox_size.split(','))`. Both an
`int()` failure and an unpacking-arity mismatch raise `ValueError`,
caught by the same handler that exits with the format hint. -/
def parse_bbox_size (s : String) : Except String (Int × Int × Int) :=
  match mapIntList (splitOnComma s.toList) with
  | none => .error "Invalid bbox_size format. Expected format: x0,y0,z0"
  | some ints =>
    match ints with
    | [a, b, c] => .ok (a, b, c)
    | _ => .error "Invalid bbox_size format. Expected format: x0,y0,z0"

/-- The batch part of `analyze_crop_outside_voxels`, after the bbox size
is known: fatal exit when no files are found; otherwise the summary step
runs over the record list with no explicit emptiness guard (it dies on
the empty table, see `cropSummaryOf`), and on success the record list
(the optional output CSV's rows, in processing order) is returned with
the aggregate summary. -/
def cropBatch (bbox : Int × Int × Int) (files : List NrrdFile) :
    Except String (List CropStatRecord × CropSummary) :=
  if files.isEmpty then .error "No NRRD files found"
  else
    let records := files.filterMap (processCropFile bbox)
    match cropSummaryOf records with
    | .error e => .error e
    | .ok s => .ok (records, s)

/-- `analyze_crop_outside_voxels`: `bbox_size` arrives either as a string
(parsed, with a fatal format-hint exit on failure) or as an already-split
triple, then the batch runs. -/
def analyze_crop_outside_voxels (bbox_size : String ⊕ (Int × Int × Int))
    (files : List NrrdFile) : Except String (List CropStatRecord × CropSummary) :=
  match bbox_size with
  | .inl s =>
    match parse_bbox_size s with
    | .error e => .error e
    | .ok bbox => cropBatch bbox files
  | .inr bbox => cropBatch bbox files

/-- `np.percentile(values, q)` with the default linear-interpolation
method: sort ascending, take position `q/100 * (n-1)`, and interpolate
linearly between the two neighbouring order statistics. -/
def npPercentile (xs : List ℚ) (q : ℚ) : ℚ :=
  let s := sortAsc xs
  let n := s.length
  let pos : ℚ := q / 100 * ((n : ℚ) - 1)
  let i : ℤ := ⌊pos⌋
  let g : ℚ := pos - (i : ℚ)
  let lo := s.getD i.toNat 0
  let hi := s.getD (i.toNat + 1) 0
  lo + g * (hi - lo)

/-- A loaded CSV in `calculate_percentiles`: the pandas DataFrame as
named columns of optional cells (a `none` cell is a NaN dropped by
`dropna()`). -/
abbrev Table := List (String × List (Option ℚ))

/-- `['d_x', 'd_y', 'd_z']` in `calculate_percentiles`. -/
def required_cols : List String := ["d_x", "d_y", "d_z"]

/-- The per-column statistics printed by `calculate_percentiles`
(Option-valued where pandas would produce NaN on an empty column). -/
structure ColStats where
  col_min : Option ℚ
  col_mean : Option ℚ
  col_median : Option ℚ
  p95 : ℚ
  p99 : ℚ
  col_max : Option ℚ
deriving Repr, DecidableEq

/-- The observable outcome of `calculate_percentiles`: fatal exit on a
missing file, fatal exit listing the missing required columns, or the
statistics printed per required column. -/
inductive PercentileResult where
  | fileMissing : PercentileResult
  | missingColumns (cols : List String) : PercentileResult
  | ok (stats : List (String × ColStats)) : PercentileResult
deriving Repr, DecidableEq

/-- `df[col].dropna()` followed by the statistics block of
`calculate_percentiles`. -/
def colStatsOf (df : Table) (c : String) : ColStats :=
  let cells := (((df.find? (fun p => p.1 == c)).map Prod.snd).getD [])
  let values := cells.filterMap id
  { col_min := listMinQ values
    col_mean := listMeanQ values
    col_median := listMedianQ values
    p95 := npPercentile values 95
    p99 := npPercentile values 99
    col_max := listMaxQ values }

/-- `calculate_percentiles`: fatal exit when the CSV path does not exist
(`csv = none`), fatal exit naming the missing required columns when any
of `d_x`, `d_y`, `d_z` is absent, otherwise the per-column statistics. -/
def calculate_percentiles (csv : Option Table) : PercentileResult :=
  match csv with
  | none => .fileMissing
  | some df =>
    let missing_cols := required_cols.filter (fun c => decide (c ∉ df.map Prod.fst))
    if missing_cols.isEmpty then
      .ok (required_cols.map (fun c => (c, colStatsOf df c)))
    else .missingColumns missing_cols

/-- C3: `hu_clip_normalize` maps each element `v` to
`(clip(v, -1000, 400) + 1000) / 1400`, so every output lies in
[0, 1]; inputs −1000, 400, 5000 and −5000 map to 0, 1, 1 and 0. -/
theorem hu_clip_normalize_ok :
    (∀ v : ℚ,
      hu_clip_normalize v = (max (-1000) (min v 400) + 1000) / 1400 ∧
      0 ≤ hu_clip_normalize v ∧ hu_clip_normalize v ≤ 1) ∧
    (∀ data : List ℚ, ∀ y ∈ hu_clip_normalize_vol data, 0 ≤ y ∧ y ≤ 1) ∧
    hu_clip_normalize (-1000) = 0 ∧ hu_clip_normalize 400 = 1 ∧
    hu_clip_normalize 5000 = 1 ∧ hu_clip_normalize (-5000) = 0 := by
  have hclip : ∀ v : ℚ,
      hu_clip_normalize v = (max (-1000) (min v 400) + 1000) / 1400 := by
    intro v
    unfold hu_clip_normalize
    congr 1
    simp only [min_def, max_def]
    split_ifs <;> linarith
  have hlb : ∀ v : ℚ, 0 ≤ hu_clip_normalize v := by
    intro v
    unfold hu_clip_normalize
    apply div_nonneg _ (by norm_num)
    have h1 : (-1000 : ℚ) ≤ max v (-1000) := le_max_right _ _
    have h2 : (-1000 : ℚ) ≤ min 400 (max v (-1000)) := le_min (by norm_num) h1
    linarith
  have hub : ∀ v : ℚ, hu_clip_normalize v ≤ 1 := by
    intro v
    unfold hu_clip_normalize
    rw [div_le_one (by norm_num)]
    have : min 400 (max v (-1000)) ≤ 400 := min_le_left _ _
    linarith
  refine ⟨fun v => ⟨hclip v, hlb v, hub v⟩, ?_,
    by norm_num [hu_clip_normalize], by norm_num [hu_clip_normalize],
    by norm_num [hu_clip_normalize], by norm_num [hu_clip_normalize]⟩
  intro data y hy
  rcases List.mem_map.mp hy with ⟨v, _, rfl⟩
  exact ⟨hlb v, hub v⟩

/-- The column 1, 2, ..., 100 of the percentile test case. -/
def oneToHundred : List ℚ :=
  [1, 2, 3, 4, 5, 6, 7, 8, 9, 10, 11, 12, 13, 14, 15, 16, 17, 18, 19, 20,
   21, 22, 23, 24, 25, 26, 27, 28, 29, 30, 31, 32, 33, 34, 35, 36, 37, 38, 39, 40,
   41, 42, 43, 44, 45, 46, 47, 48, 49, 50, 51, 52, 53, 54, 55, 56, 57, 58, 59, 60,
   61, 62, 63, 64, 65, 66, 67, 68, 69, 70, 71, 72, 73, 74, 75, 76, 77, 78, 79, 80,
   81, 82, 83, 84, 85, 86, 87, 88, 89, 90, 91, 92, 93, 94, 95, 96, 97, 98, 99, 100]

/-- C8: the percentile computation of `calculate_percentiles` uses the
linear-interpolation method: over the values 1, 2, ..., 100 the 95th
percentile is 95.05 and the 99th percentile is 99.01. -/
theorem percentile_1_to_100 :
    npPercentile oneToHundred 95 = 95.05 ∧
    npPercentile oneToHundred 99 = 99.01 ∧
    (colStatsOf [("d_x", oneToHundred.map some)] "d_x").p95 = 95.05 ∧
    (colStatsOf [("d_x", oneToHundred.map some)] "d_x").p99 = 99.01 := by
  set_option maxRecDepth 40000 in
  set_option maxHeartbeats 4000000 in
  refine ⟨by norm_num [npPercentile, oneToHundred, sortAsc, insertAsc, Int.toNat],
    by norm_num [npPercentile, oneToHundred, sortAsc, insertAsc, Int.toNat],
    by norm_num [colStatsOf, npPercentile, oneToHundred, sortAsc, insertAsc, Int.toNat],
    by norm_num [colStatsOf, npPercentile, oneToHundred, sortAsc, insertAsc, Int.toNat]⟩

theorem xIdx_ne_nil {m : Mask} (h : voxelSet m ≠ []) : xIdx m ≠ [] := by
  simpa [xIdx] using h

theorem yIdx_ne_nil {m : Mask} (h : voxelSet m ≠ []) : yIdx m ≠ [] := by
  simpa [yIdx] using h

theorem zIdx_ne_nil {m : Mask} (h : voxelSet m ≠ []) : zIdx m ≠ [] := by
  simpa [zIdx] using h

/-- C2: every record of the bbox analysis carries d_x/d_y/d_z equal to
max index − min index of the voxel set along each axis independently,
hence each ≥ 0, and a volume with exactly one non-zero voxel yields
d_x = d_y = d_z = 0. -/
theorem bbox_extents_ok (fn : String) (m : Mask) (r : BBoxRecord)
    (h : bboxRecordOf fn m = some r) :
    (r.d_x = (listMax (xIdx m) : Int) - (listMin (xIdx m) : Int) ∧
     r.d_y = (listMax (yIdx m) : Int) - (listMin (yIdx m) : Int) ∧
     r.d_z = (listMax (zIdx m) : Int) - (listMin (zIdx m) : Int)) ∧
    (0 ≤ r.d_x ∧ 0 ≤ r.d_y ∧ 0 ≤ r.d_z) ∧
    (∀ v, voxelSet m = [v] → r.d_x = 0 ∧ r.d_y = 0 ∧ r.d_z = 0) := by
  unfold bboxRecordOf at h
  by_cases hvs : voxelSet m = []
  · simp [hvs] at h
  · simp only [if_neg hvs, Option.some.injEq] at h
    subst h
    refine ⟨⟨rfl, rfl, rfl⟩, ⟨?_, ?_, ?_⟩, ?_⟩
    · simpa using Int.ofNat_le.mpr (listMin_le_listMax (xIdx_ne_nil hvs))
    · simpa using Int.ofNat_le.mpr (listMin_le_listMax (yIdx_ne_nil hvs))
    · simpa using Int.ofNat_le.mpr (listMin_le_listMax (zIdx_ne_nil hvs))
    · intro v hv
      have hx : xIdx m = [v.1] := by simp [xIdx, hv]
      have hy : yIdx m = [v.2.1] := by simp [yIdx, hv]
      have hz : zIdx m = [v.2.2] := by simp [zIdx, hv]
      simp [hx, hy, hz, listMax, listMin]

/-- Witness for C2: a volume with voxels at (0,0,1) and (1,1,1) yields
the record (d_x, d_y, d_z) = (1, 1, 0), with d_x ≥ 0. -/
theorem bbox_extents_ok_witness :
    0 ≤ ({ filename := "a.nrrd", d_x := 1, d_y := 1, d_z := 0 } : BBoxRecord).d_x :=
  ((bbox_extents_ok "a.nrrd" [[[0, 1], [0, 0]], [[0, 0], [0, 1]]]
    { filename := "a.nrrd", d_x := 1, d_y := 1, d_z := 0 } (by decide)).2.1).1

theorem analyze_ok_records {files : List NrrdFile} {recs : List BBoxRecord}
    (h : analyze_bbox_from_nrrd files = .ok recs) :
    recs = files.filterMap processFile := by
  unfold analyze_bbox_from_nrrd at h
  by_cases h1 : files.isEmpty
  · simp [h1] at h
  · simp only [if_neg h1] at h
    by_cases h2 : (files.filterMap processFile).isEmpty
    · simp [h2] at h
    · simp only [if_neg h2, Except.ok.injEq] at h
      exact h.symm

/-- C5: `analyze_bbox_from_nrrd` fails fatally exactly when the
directory holds no volume files or no records survive processing; in
those cases no CSV payload exists, and otherwise the CSV written at the
end is the complete record list in processing order. -/
theorem analyze_bbox_guards (files : List NrrdFile) :
    ((∃ e, analyze_bbox_from_nrrd files = .error e) ↔
      files = [] ∨ files.filterMap processFile = []) ∧
    (∀ recs, analyze_bbox_from_nrrd files = .ok recs →
      recs = files.filterMap processFile) := by
  constructor
  · by_cases h1 : files = []
    · subst h1; simp [analyze_bbox_from_nrrd]
    · have h1' : files.isEmpty = false := by
        simpa [List.isEmpty_iff] using h1
      by_cases h2 : files.filterMap processFile = []
      · simp [analyze_bbox_from_nrrd, h1', h1, h2]
      · have h2' : (files.filterMap processFile).isEmpty = false := by
          simpa [List.isEmpty_iff] using h2
        simp [analyze_bbox_from_nrrd, h1', h1, h2, h2']
  · intro recs h
    exact analyze_ok_records h

/-- Witness for C5: one single-voxel file is processed into exactly one
record. -/
theorem analyze_bbox_guards_witness :
    [({ filename := "a.nrrd", d_x := 0, d_y := 0, d_z := 0 } : BBoxRecord)] =
      [⟨"a.nrrd", Except.ok [[[1]]]⟩].filterMap processFile :=
  (analyze_bbox_guards [⟨"a.nrrd", Except.ok [[[1]]]⟩]).2 _ rfl

/-- C6: `calculate_percentiles` exits fatally on a missing table path;
with the table present but any of d_x, d_y, d_z absent it exits fatally
listing exactly the missing required column names; with all three
present it passes both guards and produces the statistics. -/
theorem calculate_percentiles_guards (df : Table) :
    calculate_percentiles none = .fileMissing ∧
    (∀ c, c ∈ required_cols.filter (fun c => decide (c ∉ df.map Prod.fst)) ↔
      (c ∈ required_cols ∧ c ∉ df.map Prod.fst)) ∧
    (required_cols.filter (fun c => decide (c ∉ df.map Prod.fst)) ≠ [] →
      calculate_percentiles (some df) =
        .missingColumns
          (required_cols.filter (fun c => decide (c ∉ df.map Prod.fst)))) ∧
    ((∀ c ∈ required_cols, c ∈ df.map Prod.fst) →
      calculate_percentiles (some df) =
        .ok (required_cols.map (fun c => (c, colStatsOf df c)))) := by
  refine ⟨rfl, ?_, ?_, ?_⟩
  · intro c
    simp [List.mem_filter]
  · intro hne
    have h' : (required_cols.filter (fun c => decide (c ∉ df.map Prod.fst))).isEmpty
        = false := by
      simpa [List.isEmpty_iff] using hne
    simp only [calculate_percentiles, h', Bool.false_eq_true, if_false]
  · intro hall
    have h0 : required_cols.filter (fun c => decide (c ∉ df.map Prod.fst)) = [] := by
      rw [List.filter_eq_nil_iff]
      intro c hc
      simpa using hall c hc
    simp only [calculate_percentiles, h0, List.isEmpty_nil, if_true]

/-- Witness for C6: a table holding only columns d_x and d_z makes the
guard exit listing exactly the column d_y. -/
theorem calculate_percentiles_guards_witness :
    calculate_percentiles (some [("d_x", []), ("d_z", [])]) =
      .missingColumns ["d_y"] := by
  have h := (calculate_percentiles_guards [("d_x", []), ("d_z", [])]).2.2.1
    (by decide)
  simpa using h

theorem cropBatch_ok_records {bbox : Int × Int × Int} {files : List NrrdFile}
    {recs : List CropStatRecord} {s : CropSummary}
    (h : cropBatch bbox files = .ok (recs, s)) :
    recs = files.filterMap (processCropFile bbox) := by
  unfold cropBatch at h
  by_cases h1 : files.isEmpty
  · simp [h1] at h
  · simp only [if_neg h1] at h
    cases hs : cropSummaryOf (files.filterMap (processCropFile bbox)) with
    | error e => rw [hs] at h; cases h
    | ok s2 =>
      rw [hs] at h
      simp only [Except.ok.injEq, Prod.mk.injEq] at h
      exact h.1.symm

/-- C7: in both batch operations every record of the output table comes
from a file that loaded successfully and whose voxel set is non-empty;
files with empty voxel sets are skipped and contribute no record. -/
theorem records_from_nonempty_voxelsets (files : List NrrdFile)
    (bbox : Int × Int × Int) :
    (∀ recs, analyze_bbox_from_nrrd files = .ok recs →
      ∀ r ∈ recs, ∃ f ∈ files, ∃ m, f.load = .ok m ∧ voxelSet m ≠ [] ∧
        bboxRecordOf f.filename m = some r) ∧
    (∀ recs s, cropBatch bbox files = .ok (recs, s) →
      ∀ r ∈ recs, ∃ f ∈ files, ∃ m, f.load = .ok m ∧ voxelSet m ≠ [] ∧
        cropStatOf f.filename m bbox = some r) := by
  constructor
  · intro recs h r hr
    rw [analyze_ok_records h] at hr
    rcases List.mem_filterMap.mp hr with ⟨f, hf, hpf⟩
    refine ⟨f, hf, ?_⟩
    unfold processFile at hpf
    cases hload : f.load with
    | error e => rw [hload] at hpf; cases hpf
    | ok m =>
      rw [hload] at hpf
      refine ⟨m, rfl, ?_, hpf⟩
      intro hvs
      unfold bboxRecordOf at hpf
      simp [hvs] at hpf
  · intro recs s h r hr
    rw [cropBatch_ok_records h] at hr
    rcases List.mem_filterMap.mp hr with ⟨f, hf, hpf⟩
    refine ⟨f, hf, ?_⟩
    unfold processCropFile at hpf
    cases hload : f.load with
    | error e => rw [hload] at hpf; cases hpf
    | ok m =>
      rw [hload] at hpf
      refine ⟨m, rfl, ?_, hpf⟩
      intro hvs
      unfold cropStatOf at hpf
      simp [hvs] at hpf

/-- Witness for C7: the single record produced from a one-voxel file
traces back to that file, whose voxel set is non-empty. -/
theorem records_from_nonempty_voxelsets_witness :
    ∃ f ∈ [(⟨"a.nrrd", Except.ok [[[1]]]⟩ : NrrdFile)], ∃ m,
      f.load = Except.ok m ∧ voxelSet m ≠ [] ∧
      bboxRecordOf f.filename m =
        some { filename := "a.nrrd", d_x := 0, d_y := 0, d_z := 0 } :=
  (records_from_nonempty_voxelsets [⟨"a.nrrd", Except.ok [[[1]]]⟩] (0, 0, 0)).1
    _ rfl _ (List.mem_singleton.mpr rfl)

/-- Counterexample to C4 as stated: with one unreadable file (so zero
records survive) the crop batch does not complete successfully with
summary statistics over the empty record set — no ok result exists at
this input, because the summary step dies on the first column access of
the empty table. -/
theorem crop_empty_records_not_ok_counterexample :
    ¬ ∃ recs s, cropBatch (64, 64, 64)
        [⟨"bad.nrrd", Except.error "read failure"⟩] = .ok (recs, s) := by
  rintro ⟨recs, s, h⟩
  have he : cropBatch (64, 64, 64) [⟨"bad.nrrd", Except.error "read failure"⟩] =
      .error "KeyError: total_voxels" := rfl
  rw [he] at h
  cases h

/-- C4 (amended): when every file of a non-empty directory is skipped or
fails, `analyze_crop_outside_voxels` applies no explicit fatal
empty-result guard with a descriptive message; control reaches the
aggregate summary step, which itself dies with an uncaught KeyError on
the first column access of the empty record table, terminating the batch
abnormally there with no summary statistics produced — unlike
`analyze_bbox_from_nrrd`, which exits fatally with its descriptive
empty-result message before any summary work. -/
theorem crop_empty_records_dies_in_summary (bbox : Int × Int × Int)
    (files files2 : List NrrdFile) (hne : files ≠ [])
    (hall : ∀ f ∈ files, processCropFile bbox f = none)
    (hne2 : files2 ≠ []) (hall2 : ∀ f ∈ files2, processFile f = none) :
    cropSummaryOf (files.filterMap (processCropFile bbox)) =
      .error "KeyError: total_voxels" ∧
    cropBatch bbox files = .error "KeyError: total_voxels" ∧
    analyze_bbox_from_nrrd files2 = .error "No valid records generated" := by
  have hrec : files.filterMap (processCropFile bbox) = [] := by
    rw [List.filterMap_eq_nil_iff]; exact hall
  have hne' : files.isEmpty = false := by simpa [List.isEmpty_iff] using hne
  have hsum : cropSummaryOf (files.filterMap (processCropFile bbox)) =
      .error "KeyError: total_voxels" := by
    rw [hrec]; rfl
  refine ⟨hsum, ?_, ?_⟩
  · unfold cropBatch
    simp only [hne', Bool.false_eq_true, if_false, hsum]
  · have hrec2 : files2.filterMap processFile = [] := by
      rw [List.filterMap_eq_nil_iff]; exact hall2
    have hne2' : files2.isEmpty = false := by simpa [List.isEmpty_iff] using hne2
    unfold analyze_bbox_from_nrrd
    simp only [hne2', Bool.false_eq_true, if_false, hrec2, List.isEmpty_nil, if_true]

/-- Witness for C4 (amended): a directory with one unreadable file makes
the crop batch terminate abnormally in the summary step with the
KeyError, while the bbox analyzer exits with its descriptive message. -/
theorem crop_empty_records_dies_in_summary_witness :
    cropBatch (64, 64, 64) [⟨"bad.nrrd", Except.error "read failure"⟩] =
      .error "KeyError: total_voxels" :=
  (crop_empty_records_dies_in_summary (64, 64, 64)
    [⟨"bad.nrrd", Except.error "read failure"⟩]
    [⟨"bad.nrrd", Except.error "read failure"⟩] (by simp)
    (by intro f hf; rw [List.mem_singleton] at hf; subst hf; rfl)
    (by simp)
    (by intro f hf; rw [List.mem_singleton] at hf; subst hf; rfl)).2.1

/-- C9: with crop window size (0, 0, 0) the half-open membership test
excludes every voxel — including one whose integer index coincides with
the centroid on all three axes — so outside_voxels equals
total_voxels. -/
theorem crop_zero_size_all_outside (fn : String) (m : Mask) (r : CropStatRecord)
    (h : cropStatOf fn m (0, 0, 0) = some r) :
    r.outside_voxels = r.total_voxels := by
  unfold cropStatOf at h
  by_cases hvs : voxelSet m = []
  · simp [hvs] at h
  · simp only [if_neg hvs, Option.some.injEq] at h
    subst h
    show (voxelSet m).countP _ = (voxelSet m).length
    rw [List.countP_eq_length]
    intro v hv
    simp only [voxelOutside, Bool.or_eq_true, decide_eq_true_eq, ge_iff_le,
      Int.cast_zero, zero_div, sub_zero, add_zero]
    rcases lt_or_le ((v.1 : ℚ)) (centroid (xIdx m)) with hx | hx <;> tauto

/-- Witness for C9: a single voxel lying exactly at the centroid is
still outside the size-(0,0,0) window: outside = total = 1. -/
theorem crop_zero_size_all_outside_witness :
    ({ filename := "a.nrrd", total_voxels := 1, outside_voxels := 1,
        outside_percentage := 100 } : CropStatRecord).outside_voxels =
      ({ filename := "a.nrrd", total_voxels := 1, outside_voxels := 1,
          outside_percentage := 100 } : CropStatRecord).total_voxels :=
  crop_zero_size_all_outside "a.nrrd" [[[1]]] _ (by
    have hvs : voxelSet [[[1]]] = [(0, 0, 0)] := by decide
    norm_num [cropStatOf, hvs, xIdx, yIdx, zIdx, centroid, voxelOutside,
      List.countP, List.countP.go])

/-- The spec's phrasing of crop-window membership on one axis: the
half-open interval, lower bound inclusive, upper bound exclusive. -/
def inWindow_spec (lo hi x : ℚ) : Prop := lo ≤ x ∧ x < hi

/-- The spec's phrasing of the outside test: a voxel is outside iff it
fails the half-open membership test on at least one of the three axes,
where each axis's window is [centroid − size/2, centroid + size/2). -/
def outsideCrop_spec (bbox : Int × Int × Int) (cx cy cz : ℚ)
    (v : Nat × Nat × Nat) : Prop :=
  ¬ inWindow_spec (cx - (bbox.1 : ℚ) / 2) (cx + (bbox.1 : ℚ) / 2) (v.1 : ℚ) ∨
  ¬ inWindow_spec (cy - (bbox.2.1 : ℚ) / 2) (cy + (bbox.2.1 : ℚ) / 2) (v.2.1 : ℚ) ∨
  ¬ inWindow_spec (cz - (bbox.2.2 : ℚ) / 2) (cz + (bbox.2.2 : ℚ) / 2) (v.2.2 : ℚ)

instance (bbox : Int × Int × Int) (cx cy cz : ℚ) :
    DecidablePred (outsideCrop_spec bbox cx cy cz) := fun v => by
  unfold outsideCrop_spec inWindow_spec
  infer_instance

/-- C1: the outside test of `analyze_crop_outside_voxels` coincides with
the spec's half-open window [centroid − size/2, centroid + size/2) per
axis (centroid = arithmetic mean of that axis's voxel indices), OR-ed
across the three axis exclusions; hence the recorded outside_voxels
counts exactly the spec-outside voxels. -/
theorem crop_outside_matches_spec (fn : String) (m : Mask)
    (bbox : Int × Int × Int) (r : CropStatRecord)
    (h : cropStatOf fn m bbox = some r) :
    (∀ v, voxelOutside bbox (centroid (xIdx m)) (centroid (yIdx m))
        (centroid (zIdx m)) v = true ↔
      outsideCrop_spec bbox (centroid (xIdx m)) (centroid (yIdx m))
        (centroid (zIdx m)) v) ∧
    r.outside_voxels = ((voxelSet m).filter (fun v =>
      decide (outsideCrop_spec bbox (centroid (xIdx m)) (centroid (yIdx m))
        (centroid (zIdx m)) v))).length := by
  have hiff : ∀ v, voxelOutside bbox (centroid (xIdx m)) (centroid (yIdx m))
      (centroid (zIdx m)) v = true ↔
      outsideCrop_spec bbox (centroid (xIdx m)) (centroid (yIdx m))
        (centroid (zIdx m)) v := by
    intro v
    simp only [voxelOutside, Bool.or_eq_true, decide_eq_true_eq, ge_iff_le,
      outsideCrop_spec, inWindow_spec, not_and_or, not_le, not_lt]
    tauto
  refine ⟨hiff, ?_⟩
  unfold cropStatOf at h
  by_cases hvs : voxelSet m = []
  · simp [hvs] at h
  · simp only [if_neg hvs, Option.some.injEq] at h
    subst h
    show (voxelSet m).countP _ = _
    rw [← List.countP_eq_length_filter]
    apply List.countP_congr
    intro v hv
    rw [decide_eq_true_eq]
    exact hiff v

/-- Witness for C1 at a one-voxel volume and window size (2,2,2): the
source's outside test agrees with the spec's half-open membership at the
voxel (0,0,0). -/
theorem crop_outside_matches_spec_witness :
    voxelOutside (2, 2, 2) (centroid (xIdx [[[1]]])) (centroid (yIdx [[[1]]]))
        (centroid (zIdx [[[1]]])) (0, 0, 0) = true ↔
      outsideCrop_spec (2, 2, 2) (centroid (xIdx [[[1]]]))
        (centroid (yIdx [[[1]]])) (centroid (zIdx [[[1]]])) (0, 0, 0) :=
  (crop_outside_matches_spec "a.nrrd" [[[1]]] (2, 2, 2)
    { filename := "a.nrrd", total_voxels := 1, outside_voxels := 0,
      outside_percentage := 0 } (by
    have hvs : voxelSet [[[1]]] = [(0, 0, 0)] := by decide
    norm_num [cropStatOf, hvs, xIdx, yIdx, zIdx, centroid, voxelOutside,
      List.countP, List.countP.go])).1 (0, 0, 0)

theorem mapIntList_some_length {l : List (List Char)} {is : List Int}
    (h : mapIntList l = some is) : is.length = l.length := by
  induction l generalizing is with
  | nil =>
    simp only [mapIntList, Option.some.injEq] at h
    subst h; rfl
  | cons p ps ih =>
    unfold mapIntList at h
    cases hp : pyParseInt p with
    | none => rw [hp] at h; cases h
    | some i =>
      rw [hp] at h
      cases hrec : mapIntList ps with
      | none => rw [hrec] at h; cases h
      | some is' =>
        rw [hrec] at h
        simp only [Option.some.injEq] at h
        subst h
        simp [ih hrec]

theorem mapIntList_some_all {l : List (List Char)} {is : List Int}
    (h : mapIntList l = some is) : ∀ p ∈ l, (pyParseInt p).isSome := by
  induction l generalizing is with
  | nil => intro p hp; cases hp
  | cons q qs ih =>
    intro p hp
    unfold mapIntList at h
    cases hq : pyParseInt q with
    | none => rw [hq] at h; cases h
    | some i =>
      rw [hq] at h
      cases hrec : mapIntList qs with
      | none => rw [hrec] at h; cases h
      | some is' =>
        rcases List.mem_cons.mp hp with hpq | hpq
        · subst hpq; simp [hq]
        · exact ih hrec p hpq

theorem mapIntList_total {l : List (List Char)}
    (h : ∀ p ∈ l, (pyParseInt p).isSome) : ∃ is, mapIntList l = some is := by
  induction l with
  | nil => exact ⟨[], rfl⟩
  | cons p ps ih =>
    rcases Option.isSome_iff_exists.mp (h p (List.mem_cons_self _ _)) with ⟨i, hi⟩
    rcases ih (fun q hq => h q (List.mem_cons_of_mem _ hq)) with ⟨is, his⟩
    exact ⟨i :: is, by simp [mapIntList, hi, his]⟩

/-- C10: the bbox_size parsing succeeds exactly on strings whose
comma-split has three components that each parse as an integer literal —
zero and negative values included, positivity never validated — and on
success the batch proceeds with the parsed integers; any other string
gives the fatal format-hint exit. -/
theorem parse_bbox_size_spec (s : String) (t : Int × Int × Int)
    (files : List NrrdFile) :
    ((∃ u, parse_bbox_size s = .ok u) ↔
      ((splitOnComma s.toList).length = 3 ∧
        ∀ p ∈ splitOnComma s.toList, (pyParseInt p).isSome)) ∧
    (parse_bbox_size s = .ok t ↔
      mapIntList (splitOnComma s.toList) = some [t.1, t.2.1, t.2.2]) ∧
    (parse_bbox_size s = .ok t →
      analyze_crop_outside_voxels (.inl s) files = cropBatch t files) := by
  have key : ∀ u : Int × Int × Int, parse_bbox_size s = .ok u ↔
      mapIntList (splitOnComma s.toList) = some [u.1, u.2.1, u.2.2] := by
    intro u
    constructor
    · intro hu
      unfold parse_bbox_size at hu
      cases hm : mapIntList (splitOnComma s.toList) with
      | none => rw [hm] at hu; cases hu
      | some ints =>
        rw [hm] at hu
        rcases ints with _ | ⟨a, _ | ⟨b, _ | ⟨c, _ | ⟨d, rest⟩⟩⟩⟩
        · cases hu
        · cases hu
        · cases hu
        · cases hu; rfl
        · cases hu
    · intro hm
      unfold parse_bbox_size
      rw [hm]
  refine ⟨⟨?_, ?_⟩, key t, ?_⟩
  · rintro ⟨u, hu⟩
    have hm := (key u).mp hu
    refine ⟨?_, mapIntList_some_all hm⟩
    have hl := mapIntList_some_length hm
    simpa using hl.symm
  · rintro ⟨hlen, hall⟩
    rcases mapIntList_total hall with ⟨is, his⟩
    have hlen3 : is.length = 3 := by
      rw [mapIntList_some_length his, hlen]
    rcases is with _ | ⟨a, _ | ⟨b, _ | ⟨c, _ | ⟨d, rest⟩⟩⟩⟩ <;> simp at hlen3
    exact ⟨(a, b, c), (key (a, b, c)).mpr his⟩
  · intro h
    show (match parse_bbox_size s with
      | Except.error e => Except.error e
      | Except.ok bbox => cropBatch bbox files) = cropBatch t files
    rw [h]

/-- Witness for C10: "0,-7,3" parses into sizes (0, −7, 3) — zero and
negative components accepted — and the batch proceeds with them. -/
theorem parse_bbox_size_spec_witness :
    analyze_crop_outside_voxels (.inl "0,-7,3") [⟨"a.nrrd", Except.error "e"⟩] =
      cropBatch (0, -7, 3) [⟨"a.nrrd", Except.error "e"⟩] :=
  (parse_bbox_size_spec "0,-7,3" (0, -7, 3) [⟨"a.nrrd", Except.error "e"⟩]).2.2
    (by
      unfold parse_bbox_size
      have hsplit : mapIntList (splitOnComma "0,-7,3".toList) =
          some [0, -7, 3] := by decide
      rw [hsplit])

/-- Witness for C3: the volume-level transform keeps the element 5000
inside [0, 1]. -/
theorem hu_clip_normalize_ok_witness :
    0 ≤ hu_clip_normalize 5000 ∧ hu_clip_normalize 5000 ≤ 1 :=
  hu_clip_normalize_ok.2.1 [5000] (hu_clip_normalize 5000)
    (List.mem_singleton.mpr rfl)
